import Mathlib

/-!
# `scripts/mint.js` of the CourseERC721a project

A shallow embedding of the exported `async function( callback )` of
`src/solidity/CourseERC721a/scripts/mint.js`, together with the small effect model it
runs in: remote calls issued through the contract client (each one started, then awaited),
writes to standard output through `console.log`, and the completion callback handed in by
`truffle exec`.

The contract and the network behind it are not part of the repository; they are an
arbitrary environment `Env`, which decides for every call, from the calls issued before
it, whether the call fails and what it returns.
-/

set_option linter.unusedVariables false

namespace MintScript

/-! ## Values, errors, calls -/

/-- JavaScript values the script hands to the contract client or receives from it.
`obj` is any other object (a transaction receipt, a big number), carried with the text
`console.log` shows for it. -/
inductive Value where
  | undefined
  | bool (b : Bool)
  | num (n : Nat)
  | str (s : String)
  | obj (id : Nat) (inspected : String)
  deriving DecidableEq, Repr

/-- A thrown value: whatever the contract client raises. -/
structure Err where
  msg : String
  deriving DecidableEq, Repr

/-- A contract instance as returned by `Artifact.at( address )`. -/
abbrev Handle := Nat

/-- A call into the contract client. `resolve a addr` is `a.at( addr )`;
`send token m args` is `token.m( args... )`, with exactly the arguments written at the
call site (a sender would be a trailing transaction-parameter argument). -/
inductive Call where
  | resolve (artifact : String) (address : String)
  | send (token : Handle) (method : String) (args : List Value)
  deriving DecidableEq, Repr

/-- What can be observed of a run, in the order it happens. -/
inductive Event where
  | callStart (id : Nat) (c : Call)
  | callEnd (id : Nat) (failure : Option Err)
  | log (text : String)
  | callback (arg : Option Err)
  deriving DecidableEq, Repr

/-- The contract environment: the outcome of a call, given the calls issued before it
(oldest first). A resolution yields a contract instance or throws; a method call yields
a value or throws. -/
structure Env where
  resolve : List Call → String → String → Except Err Handle
  send : List Call → Handle → String → List Value → Except Err Value

/-- The state of a run: the events so far, the calls issued so far, and the ids of the
calls that were started and have not completed yet. -/
structure World where
  trace : List Event
  calls : List Call
  inFlight : List Nat
  deriving DecidableEq, Repr

/-- The empty state in which the script runner invokes the exported function. -/
def World.init : World := ⟨[], [], []⟩

/-! ## The effect monad of an `async function` body -/

/-- A computation of an `async function` body: it reads the environment, changes the
world, and either yields a value or throws (the promise of the function rejects). -/
def Script (α : Type) : Type := Env → World → Except Err α × World

/-- Sequencing: a throw in the first part skips the rest; there is no handler. -/
def Script.bind {α β : Type} (m : Script α) (f : α → Script β) : Script β :=
  fun env w =>
    match m env w with
    | (Except.ok a, w1) => f a env w1
    | (Except.error e, w1) => (Except.error e, w1)

instance : Monad Script where
  pure a := fun _ w => (Except.ok a, w)
  bind := Script.bind

/-- A pending result of a started call. -/
structure Promise (α : Type) where
  id : Nat
  outcome : Except Err α

/-- Append an event to the trace. -/
def World.emit (w : World) (ev : Event) : World :=
  { w with trace := w.trace ++ [ev] }

/-- The failure recorded at the completion of a call. -/
def failureOf {α : Type} : Except Err α → Option Err
  | Except.ok _ => none
  | Except.error e => some e

/-- Evaluate `Artifact.at( address )`: the call is issued and is now in flight. -/
def startResolve (artifact address : String) : Script (Promise Handle) :=
  fun env w =>
    let id := w.calls.length
    let c := Call.resolve artifact address
    (Except.ok ⟨id, env.resolve w.calls artifact address⟩,
      { trace := w.trace ++ [Event.callStart id c],
        calls := w.calls ++ [c],
        inFlight := w.inFlight ++ [id] })

/-- Evaluate `token.method( args... )`: the call is issued and is now in flight. -/
def startSend (token : Handle) (method : String) (args : List Value) :
    Script (Promise Value) :=
  fun env w =>
    let id := w.calls.length
    let c := Call.send token method args
    (Except.ok ⟨id, env.send w.calls token method args⟩,
      { trace := w.trace ++ [Event.callStart id c],
        calls := w.calls ++ [c],
        inFlight := w.inFlight ++ [id] })

/-- The `await` of a promise: the body is suspended until the call has completed, then
continues with its value or throws its error. -/
def await {α : Type} (p : Promise α) : Script α :=
  fun _ w =>
    if p.id ∈ w.inFlight then
      (p.outcome,
        { trace := w.trace ++ [Event.callEnd p.id (failureOf p.outcome)],
          calls := w.calls,
          inFlight := w.inFlight.erase p.id })
    else (p.outcome, w)

/-- The text `console.log` writes for a value (without the line end). -/
def Value.render : Value → String
  | Value.undefined => "undefined"
  | Value.bool true => "true"
  | Value.bool false => "false"
  | Value.num n => toString n
  | Value.str s => s
  | Value.obj _ inspected => inspected

/-- The statement `console.log( v )`. -/
def console_log (v : Value) : Script Unit :=
  fun _ w => (Except.ok (), w.emit (Event.log v.render))

/-- The completion callback `truffle exec` passes in: calling it is an observable event. -/
def runnerCallback (arg : Option Err) : Script Unit :=
  fun _ w => (Except.ok (), w.emit (Event.callback arg))

/-! ## The script -/

/-- The artifact `artifacts.require( 'CourseERC721a' )` bound at module level. -/
def CourseERC721a : String := "CourseERC721a"

/-- The constant `owner` of the function body. -/
def owner : String := "0xa10746C425A1CAE05cE5e8aBBCD0e358509089b9"

/-- The constant `contract_address` of the function body. -/
def contract_address : String := "0x54EBf773e93D84E6993BDBF065e3c906A9A8Da5B"

/-- The statements of the exported function, with its two local constants and its
parameter as arguments. -/
def body (owner contract_address : String) (callback : Option Err → Script Unit) :
    Script Unit := do
  let token ← await (← startResolve CourseERC721a contract_address)
  console_log (Value.str "Mint tokens")
  let _ ← await (← startSend token "pause" [Value.bool false])
  let _ ← await (← startSend token "reveal" [])
  let mint_result ← await (← startSend token "mint" [Value.num 10])
  let token_uri ← await (← startSend token "tokenURI" [Value.num 1])
  console_log (Value.str "tokenURI")
  console_log token_uri
  console_log (Value.str "END")

/-- The exported function: `module.exports = async function( callback ) { ... }`. -/
def module_exports (callback : Option Err → Script Unit) : Script Unit :=
  body owner contract_address callback

/-- A run of the script by the runner: the result of the function's promise and the
final world. -/
def run (env : Env) : Except Err Unit × World :=
  module_exports runnerCallback env World.init

/-! ## Observations on a trace -/

/-- The calls issued, in order. -/
def issued : List Event → List Call
  | [] => []
  | Event.callStart _ c :: rest => c :: issued rest
  | _ :: rest => issued rest

/-- The lines written to standard output, in order. -/
def stdoutLines : List Event → List String
  | [] => []
  | Event.log text :: rest => text :: stdoutLines rest
  | _ :: rest => stdoutLines rest

/-- Standard output as one text: every `console.log` ends its line. -/
def stdout (tr : List Event) : String :=
  String.join ((stdoutLines tr).map (fun l => l ++ "\n"))

/-- The arguments with which the completion callback was invoked, in order. -/
def callbackCalls : List Event → List (Option Err)
  | [] => []
  | Event.callback a :: rest => a :: callbackCalls rest
  | _ :: rest => callbackCalls rest

/-- The calls in flight after a trace, starting from the set `open_`. -/
def inFlightAfter (open_ : List Nat) : List Event → List Nat
  | [] => open_
  | Event.callStart id _ :: rest => inFlightAfter (open_ ++ [id]) rest
  | Event.callEnd id _ :: rest => inFlightAfter (open_.erase id) rest
  | _ :: rest => inFlightAfter open_ rest

/-- Strict sequencing of a trace: a call is started only when no call is in flight, and
only a call in flight completes. -/
def sequentialFrom (open_ : List Nat) : List Event → Bool
  | [] => true
  | Event.callStart id _ :: rest => open_.isEmpty && sequentialFrom [id] rest
  | Event.callEnd id _ :: rest => (open_ == [id]) && sequentialFrom [] rest
  | _ :: rest => sequentialFrom open_ rest

/-! ## The five calls of the script -/

/-- The call `CourseERC721a.at( contract_address )`. -/
def resolveCall : Call := Call.resolve CourseERC721a contract_address

/-- The call `token.pause( false )`. -/
def pauseCall (token : Handle) : Call := Call.send token "pause" [Value.bool false]

/-- The call `token.reveal()`. -/
def revealCall (token : Handle) : Call := Call.send token "reveal" []

/-- The call `token.mint( 10 )`. -/
def mintCall (token : Handle) : Call := Call.send token "mint" [Value.num 10]

/-- The call `token.tokenURI( 1 )`. -/
def tokenURICall (token : Handle) : Call := Call.send token "tokenURI" [Value.num 1]

/-- The four remote calls on the resolved handle, in the order of the script. -/
def remoteCalls (token : Handle) : List Call :=
  [pauseCall token, revealCall token, mintCall token, tokenURICall token]

/-- The environment answers of a run, each asked with the calls issued before it. -/
def Env.resolved (env : Env) : Except Err Handle :=
  env.resolve [] CourseERC721a contract_address

/-- The outcome of the `k`-th remote call (from 0) on `token`, when the calls before it
were issued. -/
def Env.answer (env : Env) (token : Handle) (k : Nat) : Except Err Value :=
  match (remoteCalls token).get? k with
  | some (Call.send t m args) =>
      env.send (resolveCall :: (remoteCalls token).take k) t m args
  | _ => Except.ok Value.undefined

/-- Resolution and all four remote calls succeed in the environment. -/
def Env.allSucceed (env : Env) : Prop :=
  ∃ t, env.resolved = Except.ok t ∧ ∀ k, k < 4 → ∃ v, env.answer t k = Except.ok v

/-- The remote calls issued on a contract instance (the resolution left out), in order. -/
def remoteIssued (tr : List Event) : List Call :=
  (issued tr).filter (fun c => match c with
    | Call.send _ _ _ => true
    | Call.resolve _ _ => false)

/-- Every string a call carries: artifact, address, method name, and the strings among
its arguments. -/
def Call.strings : Call → List String
  | Call.resolve artifact address => [artifact, address]
  | Call.send _ method args =>
      method :: args.filterMap (fun v => match v with
        | Value.str s => some s
        | Value.obj _ inspected => some inspected
        | _ => none)

/-- A sample environment: the contract is deployed as instance 7, every transaction
returns a receipt, and `tokenURI` answers with a fixed URI. -/
def sampleEnv : Env where
  resolve := fun _ _ _ => Except.ok 7
  send := fun hist _ _ _ =>
    if hist.length = 4 then Except.ok (Value.str "ipfs://course/1.json")
    else Except.ok (Value.obj hist.length "[receipt]")

/-- A sample environment without a contract at the address: resolution throws. -/
def noContractEnv : Env where
  resolve := fun _ _ _ => Except.error ⟨"no code at address"⟩
  send := fun _ _ _ _ => Except.ok Value.undefined

/-- A sample environment in which the `n`-th call of the run (from 0, the resolution
being call 0) reverts and every other call succeeds. -/
def revertAt (n : Nat) : Env where
  resolve := fun hist _ _ =>
    if hist.length = n then Except.error ⟨"revert"⟩ else Except.ok 7
  send := fun hist _ _ _ =>
    if hist.length = n then Except.error ⟨"revert"⟩
    else if hist.length = 4 then Except.ok (Value.str "ipfs://course/1.json")
    else Except.ok (Value.obj hist.length "[receipt]")

/-! ## Where a run stops -/

/-- The place where a run stops. -/
inductive Stop where
  | noContract (e : Err)
  | failed (t : Handle) (k : Nat) (e : Err)
  | done (t : Handle) (u : Value)

/-- The trace of a run that stops at the given place. -/
def Stop.trace : Stop → List Event
  | Stop.noContract e => [Event.callStart 0 resolveCall, Event.callEnd 0 (some e)]
  | Stop.failed t k e =>
      [Event.callStart 0 resolveCall, Event.callEnd 0 none, Event.log "Mint tokens"]
        ++ (((remoteCalls t).take k).enumFrom 1).flatMap
            (fun p => [Event.callStart p.1 p.2, Event.callEnd p.1 none])
        ++ (match (remoteCalls t).get? k with
            | some c => [Event.callStart (k + 1) c, Event.callEnd (k + 1) (some e)]
            | none => [])
  | Stop.done t u =>
      [Event.callStart 0 resolveCall, Event.callEnd 0 none, Event.log "Mint tokens"]
        ++ ((remoteCalls t).enumFrom 1).flatMap
            (fun p => [Event.callStart p.1 p.2, Event.callEnd p.1 none])
        ++ [Event.log "tokenURI", Event.log u.render, Event.log "END"]

/-- The lines on standard output of a run that stops at the given place. -/
def Stop.lines : Stop → List String
  | Stop.noContract _ => []
  | Stop.failed _ _ _ => ["Mint tokens"]
  | Stop.done _ u => ["Mint tokens", "tokenURI", u.render, "END"]

/-- The result of a run that stops at the given place. -/
def Stop.result : Stop → Except Err Unit
  | Stop.noContract e => Except.error e
  | Stop.failed _ _ e => Except.error e
  | Stop.done _ _ => Except.ok ()

/-- The environment sends the run to the given stop: the first error among its answers
is there. -/
def Stop.reachedIn (env : Env) : Stop → Prop
  | Stop.noContract e => env.resolved = Except.error e
  | Stop.failed t k e =>
      k < 4 ∧ env.resolved = Except.ok t ∧ (∀ j, j < k → ∃ v, env.answer t j = Except.ok v)
        ∧ env.answer t k = Except.error e
  | Stop.done t u =>
      env.resolved = Except.ok t ∧ (∀ j, j < 3 → ∃ v, env.answer t j = Except.ok v)
        ∧ env.answer t 3 = Except.ok u

/-- Whether the line "Mint tokens" was written before every call issued on a contract
handle, where `seen` says whether it was written before the trace starts. -/
def logBeforeSend (seen : Bool) : List Event → Bool
  | [] => true
  | Event.log text :: rest => logBeforeSend (seen || text == "Mint tokens") rest
  | Event.callStart _ (Call.send _ _ _) :: rest => seen && logBeforeSend seen rest
  | _ :: rest => logBeforeSend seen rest

/-! ## The six runs

Every run stops at one of six places, decided by the first answer of the environment
that is an error. Each lemma below evaluates the script on one of them. -/

theorem answer_zero (env : Env) (t : Handle) :
    env.answer t 0 = env.send [resolveCall] t "pause" [Value.bool false] := rfl

theorem answer_one (env : Env) (t : Handle) :
    env.answer t 1 = env.send [resolveCall, pauseCall t] t "reveal" [] := rfl

theorem answer_two (env : Env) (t : Handle) :
    env.answer t 2 =
      env.send [resolveCall, pauseCall t, revealCall t] t "mint" [Value.num 10] := rfl

theorem answer_three (env : Env) (t : Handle) :
    env.answer t 3 =
      env.send [resolveCall, pauseCall t, revealCall t, mintCall t] t "tokenURI"
        [Value.num 1] := rfl

theorem run_resolve_error (env : Env) (e : Err) (h : env.resolved = Except.error e) :
    run env = (Except.error e,
      ⟨[Event.callStart 0 resolveCall, Event.callEnd 0 (some e)], [resolveCall], []⟩) := by
  simp only [Env.resolved, resolveCall] at h
  simp [run, module_exports, body, bind, Script.bind, startResolve, await, World.init, h,
    failureOf, resolveCall]

theorem run_pause_error (env : Env) (t : Handle) (e : Err)
    (h : env.resolved = Except.ok t) (h0 : env.answer t 0 = Except.error e) :
    run env = (Except.error e,
      ⟨[Event.callStart 0 resolveCall, Event.callEnd 0 none, Event.log "Mint tokens",
        Event.callStart 1 (pauseCall t), Event.callEnd 1 (some e)],
        [resolveCall, pauseCall t], []⟩) := by
  simp only [Env.resolved, answer_zero, resolveCall] at h h0
  simp [run, module_exports, body, bind, Script.bind, startResolve, startSend, await,
    World.init, failureOf, resolveCall, pauseCall, console_log, World.emit, Value.render,
    h, h0]

theorem run_reveal_error (env : Env) (t : Handle) (v0 : Value) (e : Err)
    (h : env.resolved = Except.ok t) (h0 : env.answer t 0 = Except.ok v0)
    (h1 : env.answer t 1 = Except.error e) :
    run env = (Except.error e,
      ⟨[Event.callStart 0 resolveCall, Event.callEnd 0 none, Event.log "Mint tokens",
        Event.callStart 1 (pauseCall t), Event.callEnd 1 none,
        Event.callStart 2 (revealCall t), Event.callEnd 2 (some e)],
        [resolveCall, pauseCall t, revealCall t], []⟩) := by
  simp only [Env.resolved, answer_zero, answer_one, resolveCall, pauseCall] at h h0 h1
  simp [run, module_exports, body, bind, Script.bind, startResolve, startSend, await,
    World.init, failureOf, resolveCall, pauseCall, revealCall, console_log, World.emit,
    Value.render, h, h0, h1]

theorem run_mint_error (env : Env) (t : Handle) (v0 v1 : Value) (e : Err)
    (h : env.resolved = Except.ok t) (h0 : env.answer t 0 = Except.ok v0)
    (h1 : env.answer t 1 = Except.ok v1) (h2 : env.answer t 2 = Except.error e) :
    run env = (Except.error e,
      ⟨[Event.callStart 0 resolveCall, Event.callEnd 0 none, Event.log "Mint tokens",
        Event.callStart 1 (pauseCall t), Event.callEnd 1 none,
        Event.callStart 2 (revealCall t), Event.callEnd 2 none,
        Event.callStart 3 (mintCall t), Event.callEnd 3 (some e)],
        [resolveCall, pauseCall t, revealCall t, mintCall t], []⟩) := by
  simp only [Env.resolved, answer_zero, answer_one, answer_two, resolveCall, pauseCall,
    revealCall] at h h0 h1 h2
  simp [run, module_exports, body, bind, Script.bind, startResolve, startSend, await,
    World.init, failureOf, resolveCall, pauseCall, revealCall, mintCall, console_log,
    World.emit, Value.render, h, h0, h1, h2]

theorem run_tokenURI_error (env : Env) (t : Handle) (v0 v1 v2 : Value) (e : Err)
    (h : env.resolved = Except.ok t) (h0 : env.answer t 0 = Except.ok v0)
    (h1 : env.answer t 1 = Except.ok v1) (h2 : env.answer t 2 = Except.ok v2)
    (h3 : env.answer t 3 = Except.error e) :
    run env = (Except.error e,
      ⟨[Event.callStart 0 resolveCall, Event.callEnd 0 none, Event.log "Mint tokens",
        Event.callStart 1 (pauseCall t), Event.callEnd 1 none,
        Event.callStart 2 (revealCall t), Event.callEnd 2 none,
        Event.callStart 3 (mintCall t), Event.callEnd 3 none,
        Event.callStart 4 (tokenURICall t), Event.callEnd 4 (some e)],
        [resolveCall, pauseCall t, revealCall t, mintCall t, tokenURICall t], []⟩) := by
  simp only [Env.resolved, answer_zero, answer_one, answer_two, answer_three, resolveCall,
    pauseCall, revealCall, mintCall] at h h0 h1 h2 h3
  simp [run, module_exports, body, bind, Script.bind, startResolve, startSend, await,
    World.init, failureOf, resolveCall, pauseCall, revealCall, mintCall, tokenURICall,
    console_log, World.emit, Value.render, h, h0, h1, h2, h3]

theorem run_all_ok (env : Env) (t : Handle) (v0 v1 v2 v3 : Value)
    (h : env.resolved = Except.ok t) (h0 : env.answer t 0 = Except.ok v0)
    (h1 : env.answer t 1 = Except.ok v1) (h2 : env.answer t 2 = Except.ok v2)
    (h3 : env.answer t 3 = Except.ok v3) :
    run env = (Except.ok (),
      ⟨[Event.callStart 0 resolveCall, Event.callEnd 0 none, Event.log "Mint tokens",
        Event.callStart 1 (pauseCall t), Event.callEnd 1 none,
        Event.callStart 2 (revealCall t), Event.callEnd 2 none,
        Event.callStart 3 (mintCall t), Event.callEnd 3 none,
        Event.callStart 4 (tokenURICall t), Event.callEnd 4 none,
        Event.log "tokenURI", Event.log v3.render, Event.log "END"],
        [resolveCall, pauseCall t, revealCall t, mintCall t, tokenURICall t], []⟩) := by
  simp only [Env.resolved, answer_zero, answer_one, answer_two, answer_three, resolveCall,
    pauseCall, revealCall, mintCall] at h h0 h1 h2 h3
  simp [run, module_exports, body, bind, Script.bind, startResolve, startSend, await,
    World.init, failureOf, resolveCall, pauseCall, revealCall, mintCall, tokenURICall,
    console_log, World.emit, Value.render, h, h0, h1, h2, h3]

/-- A run that is sent to a stop has the trace and the result of that stop. -/
theorem run_of_reached (env : Env) (s : Stop) (h : s.reachedIn env) :
    (run env).1 = s.result ∧ (run env).2.trace = s.trace := by
  cases s with
  | noContract e =>
      rw [run_resolve_error env e h]
      exact ⟨rfl, rfl⟩
  | failed t k e =>
      obtain ⟨hk, hr, hprev, hfail⟩ := h
      have hk4 : k = 0 ∨ k = 1 ∨ k = 2 ∨ k = 3 := by omega
      rcases hk4 with rfl | rfl | rfl | rfl
      · rw [run_pause_error env t e hr hfail]
        exact ⟨rfl, rfl⟩
      · obtain ⟨v0, h0⟩ := hprev 0 (by omega)
        rw [run_reveal_error env t v0 e hr h0 hfail]
        exact ⟨rfl, rfl⟩
      · obtain ⟨v0, h0⟩ := hprev 0 (by omega)
        obtain ⟨v1, h1⟩ := hprev 1 (by omega)
        rw [run_mint_error env t v0 v1 e hr h0 h1 hfail]
        exact ⟨rfl, rfl⟩
      · obtain ⟨v0, h0⟩ := hprev 0 (by omega)
        obtain ⟨v1, h1⟩ := hprev 1 (by omega)
        obtain ⟨v2, h2⟩ := hprev 2 (by omega)
        rw [run_tokenURI_error env t v0 v1 v2 e hr h0 h1 h2 hfail]
        exact ⟨rfl, rfl⟩
  | done t u =>
      obtain ⟨hr, hprev, h3⟩ := h
      obtain ⟨v0, h0⟩ := hprev 0 (by omega)
      obtain ⟨v1, h1⟩ := hprev 1 (by omega)
      obtain ⟨v2, h2⟩ := hprev 2 (by omega)
      rw [run_all_ok env t v0 v1 v2 u hr h0 h1 h2 h3]
      exact ⟨rfl, rfl⟩

/-- Every environment sends the run to some stop. -/
theorem exists_reached (env : Env) : ∃ s : Stop, s.reachedIn env := by
  rcases hr : env.resolved with e | t
  · exact ⟨Stop.noContract e, hr⟩
  rcases h0 : env.answer t 0 with e | v0
  · exact ⟨Stop.failed t 0 e, by omega, hr, fun j hj => by omega, h0⟩
  rcases h1 : env.answer t 1 with e | v1
  · refine ⟨Stop.failed t 1 e, by omega, hr, fun j hj => ?_, h1⟩
    have hj0 : j = 0 := by omega
    subst hj0
    exact ⟨v0, h0⟩
  rcases h2 : env.answer t 2 with e | v2
  · refine ⟨Stop.failed t 2 e, by omega, hr, fun j hj => ?_, h2⟩
    have hj0 : j = 0 ∨ j = 1 := by omega
    rcases hj0 with rfl | rfl
    · exact ⟨v0, h0⟩
    · exact ⟨v1, h1⟩
  have hprev : ∀ j, j < 3 → ∃ v, env.answer t j = Except.ok v := by
    intro j hj
    have hj0 : j = 0 ∨ j = 1 ∨ j = 2 := by omega
    rcases hj0 with rfl | rfl | rfl
    · exact ⟨v0, h0⟩
    · exact ⟨v1, h1⟩
    · exact ⟨v2, h2⟩
  rcases h3 : env.answer t 3 with e | u
  · exact ⟨Stop.failed t 3 e, by omega, hr, hprev, h3⟩
  · exact ⟨Stop.done t u, hr, hprev, h3⟩

/-- A property of all six stops holds of every stop a run can reach. -/
theorem of_six_stops (P : Stop → Prop)
    (hn : ∀ e, P (Stop.noContract e))
    (h0 : ∀ t e, P (Stop.failed t 0 e)) (h1 : ∀ t e, P (Stop.failed t 1 e))
    (h2 : ∀ t e, P (Stop.failed t 2 e)) (h3 : ∀ t e, P (Stop.failed t 3 e))
    (hd : ∀ t u, P (Stop.done t u))
    (env : Env) (s : Stop) (h : s.reachedIn env) : P s := by
  cases s with
  | noContract e => exact hn e
  | failed t k e =>
      have hk4 : k = 0 ∨ k = 1 ∨ k = 2 ∨ k = 3 := by
        have := h.1
        omega
      rcases hk4 with rfl | rfl | rfl | rfl
      · exact h0 t e
      · exact h1 t e
      · exact h2 t e
      · exact h3 t e
  | done t u => exact hd t u

/-- The stop of a run is `done` exactly when resolution and all four calls succeed. -/
theorem reached_done_iff (env : Env) (s : Stop) (hs : s.reachedIn env) :
    (∃ t u, s = Stop.done t u) ↔ env.allSucceed := by
  cases s with
  | noContract e =>
      constructor
      · rintro ⟨t, u, h⟩
        cases h
      · rintro ⟨t, hr, -⟩
        have hs1 : env.resolved = Except.error e := hs
        rw [hs1] at hr
        cases hr
  | failed t k e =>
      obtain ⟨hk, hr, -, hfail⟩ := hs
      constructor
      · rintro ⟨t1, u, h⟩
        cases h
      · rintro ⟨t1, hr1, hall⟩
        rw [hr] at hr1
        cases hr1
        obtain ⟨v, hv⟩ := hall k hk
        rw [hfail] at hv
        cases hv
  | done t u =>
      obtain ⟨hr, hprev, h3⟩ := hs
      refine ⟨fun _ => ⟨t, hr, fun k hk => ?_⟩, fun _ => ⟨t, u, rfl⟩⟩
      rcases Nat.lt_or_ge k 3 with h | h
      · exact hprev k h
      · have hk3 : k = 3 := by omega
        subst hk3
        exact ⟨u, h3⟩

/-- In a strictly sequential trace no call is in flight when a call is started. -/
theorem none_in_flight_at_start (tr : List Event) :
    ∀ (o : List Nat) (n id : Nat) (c : Call), sequentialFrom o tr = true →
      tr.get? n = some (Event.callStart id c) → inFlightAfter o (tr.take n) = [] := by
  induction tr with
  | nil =>
      intro o n id c _ hget
      simp at hget
  | cons ev rest ih =>
      intro o n id c hs hget
      cases n with
      | zero =>
          simp only [List.get?, Option.some.injEq] at hget
          subst hget
          simp only [sequentialFrom, Bool.and_eq_true, List.isEmpty_iff] at hs
          simpa [inFlightAfter] using hs.1
      | succ n =>
          simp only [List.get?] at hget
          cases ev with
          | callStart id1 c1 =>
              simp only [sequentialFrom, Bool.and_eq_true, List.isEmpty_iff] at hs
              obtain ⟨ho, hrest⟩ := hs
              subst ho
              simpa [inFlightAfter] using ih [id1] n id c hrest hget
          | callEnd id1 f =>
              simp only [sequentialFrom, Bool.and_eq_true, beq_iff_eq] at hs
              obtain ⟨ho, hrest⟩ := hs
              subst ho
              simpa [inFlightAfter] using ih [] n id c hrest hget
          | log text =>
              simpa [inFlightAfter] using ih o n id c (by simpa [sequentialFrom] using hs) hget
          | callback a =>
              simpa [inFlightAfter] using ih o n id c (by simpa [sequentialFrom] using hs) hget

/-- In a strictly sequential trace at most one call is in flight at any point. -/
theorem at_most_one_in_flight (tr : List Event) :
    ∀ (o : List Nat) (n : Nat), sequentialFrom o tr = true → o.length ≤ 1 →
      (inFlightAfter o (tr.take n)).length ≤ 1 := by
  induction tr with
  | nil =>
      intro o n _ ho
      simpa [inFlightAfter] using ho
  | cons ev rest ih =>
      intro o n hs ho
      cases n with
      | zero => simpa [inFlightAfter] using ho
      | succ n =>
          cases ev with
          | callStart id1 c1 =>
              simp only [sequentialFrom, Bool.and_eq_true, List.isEmpty_iff] at hs
              obtain ⟨ho0, hrest⟩ := hs
              subst ho0
              simpa [inFlightAfter] using ih [id1] n hrest (by simp)
          | callEnd id1 f =>
              simp only [sequentialFrom, Bool.and_eq_true, beq_iff_eq] at hs
              obtain ⟨ho0, hrest⟩ := hs
              subst ho0
              simpa [inFlightAfter] using ih [] n hrest (by simp)
          | log text =>
              simpa [inFlightAfter] using ih o n (by simpa [sequentialFrom] using hs) ho
          | callback a =>
              simpa [inFlightAfter] using ih o n (by simpa [sequentialFrom] using hs) ho

/-- When the check `logBeforeSend` passes, the line "Mint tokens" stands before every
call issued on a contract handle. -/
theorem log_before_send (tr : List Event) :
    ∀ (seen : Bool) (n id : Nat) (t : Handle) (m : String) (a : List Value),
      logBeforeSend seen tr = true →
      tr.get? n = some (Event.callStart id (Call.send t m a)) →
      seen = true ∨ Event.log "Mint tokens" ∈ tr.take n := by
  induction tr with
  | nil =>
      intro seen n id t m a _ hget
      simp at hget
  | cons ev rest ih =>
      intro seen n id t m a hs hget
      cases n with
      | zero =>
          simp only [List.get?, Option.some.injEq] at hget
          subst hget
          simp only [logBeforeSend, Bool.and_eq_true] at hs
          exact Or.inl hs.1
      | succ n =>
          simp only [List.get?] at hget
          cases ev with
          | callStart id1 c1 =>
              cases c1 with
              | resolve art addr =>
                  rcases ih seen n id t m a (by simpa [logBeforeSend] using hs) hget with h | h
                  · exact Or.inl h
                  · exact Or.inr (by simp [h])
              | send t1 m1 a1 =>
                  simp only [logBeforeSend, Bool.and_eq_true] at hs
                  exact Or.inl hs.1
          | callEnd id1 f =>
              rcases ih seen n id t m a (by simpa [logBeforeSend] using hs) hget with h | h
              · exact Or.inl h
              · exact Or.inr (by simp [h])
          | log text =>
              simp only [logBeforeSend] at hs
              rcases ih _ n id t m a hs hget with h | h
              · simp only [Bool.or_eq_true, beq_iff_eq] at h
                rcases h with h | h
                · exact Or.inl h
                · subst h
                  exact Or.inr (by simp)
              · exact Or.inr (by simp [h])
          | callback arg =>
              rcases ih seen n id t m a (by simpa [logBeforeSend] using hs) hget with h | h
              · exact Or.inl h
              · exact Or.inr (by simp [h])

/-- The lines written by a run that stops at a given place. -/
theorem stdoutLines_of_reached (env : Env) (s : Stop) (hs : s.reachedIn env) :
    stdoutLines s.trace = s.lines :=
  of_six_stops (fun s => stdoutLines s.trace = s.lines)
    (fun _ => rfl) (fun _ _ => rfl) (fun _ _ => rfl) (fun _ _ => rfl) (fun _ _ => rfl)
    (fun _ _ => rfl) env s hs

/-- None of the five calls of the script carries the declared owner address. -/
theorem owner_not_in_calls (t : Handle) :
    ∀ c, c ∈ resolveCall :: remoteCalls t → owner ∉ c.strings := by
  intro c hc
  simp only [remoteCalls, List.mem_cons, List.mem_nil_iff, or_false] at hc
  rcases hc with rfl | rfl | rfl | rfl | rfl
  · show owner ∉ [CourseERC721a, contract_address]
    decide
  · show owner ∉ ["pause"]
    decide
  · show owner ∉ ["reveal"]
    decide
  · show owner ∉ ["mint"]
    decide
  · show owner ∉ ["tokenURI"]
    decide

/-! ## The claims -/

/-- C1: when the contract resolves at the fixed address and every remote call succeeds,
the script issues, after the resolution, exactly the four calls `pause(false)`,
`reveal()`, `mint(10)`, `tokenURI(1)` on the resolved handle, in this order, and no call
twice. -/
theorem C1_four_calls_in_order (env : Env) (t : Handle) (v0 v1 v2 v3 : Value)
    (hr : env.resolve [] "CourseERC721a" "0x54EBf773e93D84E6993BDBF065e3c906A9A8Da5B"
      = Except.ok t)
    (h0 : env.answer t 0 = Except.ok v0) (h1 : env.answer t 1 = Except.ok v1)
    (h2 : env.answer t 2 = Except.ok v2) (h3 : env.answer t 3 = Except.ok v3) :
    issued (run env).2.trace =
        [Call.resolve "CourseERC721a" "0x54EBf773e93D84E6993BDBF065e3c906A9A8Da5B",
          Call.send t "pause" [Value.bool false], Call.send t "reveal" [],
          Call.send t "mint" [Value.num 10], Call.send t "tokenURI" [Value.num 1]]
      ∧ remoteIssued (run env).2.trace =
        [Call.send t "pause" [Value.bool false], Call.send t "reveal" [],
          Call.send t "mint" [Value.num 10], Call.send t "tokenURI" [Value.num 1]]
      ∧ (issued (run env).2.trace).Nodup := by
  rw [run_all_ok env t v0 v1 v2 v3 hr h0 h1 h2 h3]
  refine ⟨rfl, rfl, ?_⟩
  simp [issued, resolveCall, pauseCall, revealCall, mintCall, tokenURICall]

theorem C1_witness :
    issued (run sampleEnv).2.trace =
        [Call.resolve "CourseERC721a" "0x54EBf773e93D84E6993BDBF065e3c906A9A8Da5B",
          Call.send 7 "pause" [Value.bool false], Call.send 7 "reveal" [],
          Call.send 7 "mint" [Value.num 10], Call.send 7 "tokenURI" [Value.num 1]]
      ∧ remoteIssued (run sampleEnv).2.trace =
        [Call.send 7 "pause" [Value.bool false], Call.send 7 "reveal" [],
          Call.send 7 "mint" [Value.num 10], Call.send 7 "tokenURI" [Value.num 1]]
      ∧ (issued (run sampleEnv).2.trace).Nodup :=
  C1_four_calls_in_order sampleEnv 7 (Value.obj 1 "[receipt]") (Value.obj 2 "[receipt]")
    (Value.obj 3 "[receipt]") (Value.str "ipfs://course/1.json") rfl rfl rfl rfl rfl

/-- C2: when resolution and all four calls succeed and `tokenURI(1)` returns the string
`u`, standard output is exactly the four lines "Mint tokens", "tokenURI", `u`, "END",
whatever `pause`, `reveal` and `mint` returned. -/
theorem C2_stdout_on_success (env : Env) (t : Handle) (v0 v1 v2 : Value) (u : String)
    (hr : env.resolved = Except.ok t)
    (h0 : env.answer t 0 = Except.ok v0) (h1 : env.answer t 1 = Except.ok v1)
    (h2 : env.answer t 2 = Except.ok v2) (h3 : env.answer t 3 = Except.ok (Value.str u)) :
    stdoutLines (run env).2.trace = ["Mint tokens", "tokenURI", u, "END"]
      ∧ stdout (run env).2.trace = "Mint tokens\ntokenURI\n" ++ u ++ "\nEND\n" := by
  rw [run_all_ok env t v0 v1 v2 (Value.str u) hr h0 h1 h2 h3]
  refine ⟨rfl, ?_⟩
  simp only [stdout, stdoutLines, Value.render, List.map, String.join, List.foldl]
  apply String.ext
  simp [String.data_append]

theorem C2_witness :
    stdoutLines (run sampleEnv).2.trace
        = ["Mint tokens", "tokenURI", "ipfs://course/1.json", "END"]
      ∧ stdout (run sampleEnv).2.trace
        = "Mint tokens\ntokenURI\n" ++ "ipfs://course/1.json" ++ "\nEND\n" :=
  C2_stdout_on_success sampleEnv 7 (Value.obj 1 "[receipt]") (Value.obj 2 "[receipt]")
    (Value.obj 3 "[receipt]") "ipfs://course/1.json" rfl rfl rfl rfl rfl

/-- C3: when resolving the contract at the fixed address fails with `e`, the run is the
resolution alone: the script fails with `e`, issues no call on a contract handle, and
writes nothing to standard output. -/
theorem C3_resolution_failure (env : Env) (e : Err)
    (hr : env.resolve [] "CourseERC721a" "0x54EBf773e93D84E6993BDBF065e3c906A9A8Da5B"
      = Except.error e) :
    (run env).1 = Except.error e
      ∧ (run env).2.trace =
        [Event.callStart 0
            (Call.resolve "CourseERC721a" "0x54EBf773e93D84E6993BDBF065e3c906A9A8Da5B"),
          Event.callEnd 0 (some e)]
      ∧ remoteIssued (run env).2.trace = []
      ∧ stdoutLines (run env).2.trace = []
      ∧ stdout (run env).2.trace = "" := by
  rw [run_resolve_error env e hr]
  exact ⟨rfl, rfl, rfl, rfl, rfl⟩

theorem C3_witness :
    (run noContractEnv).1 = Except.error ⟨"no code at address"⟩
      ∧ (run noContractEnv).2.trace =
        [Event.callStart 0
            (Call.resolve "CourseERC721a" "0x54EBf773e93D84E6993BDBF065e3c906A9A8Da5B"),
          Event.callEnd 0 (some ⟨"no code at address"⟩)]
      ∧ remoteIssued (run noContractEnv).2.trace = []
      ∧ stdoutLines (run noContractEnv).2.trace = []
      ∧ stdout (run noContractEnv).2.trace = "" :=
  C3_resolution_failure noContractEnv ⟨"no code at address"⟩ rfl

/-- C4: for every k in 1..4, when the first k-1 remote calls of the sequence
`pause(false)`, `reveal()`, `mint(10)`, `tokenURI(1)` succeed and the k-th fails, the
remote calls the script issued are exactly the first k calls of that sequence. -/
theorem C4_stops_at_failing_call (env : Env) (t : Handle) (k : Nat) (e : Err)
    (hk1 : 1 ≤ k) (hk4 : k ≤ 4) (hr : env.resolved = Except.ok t)
    (hprev : ∀ j, j + 1 < k → ∃ v, env.answer t j = Except.ok v)
    (hfail : env.answer t (k - 1) = Except.error e) :
    remoteIssued (run env).2.trace =
      List.take k [Call.send t "pause" [Value.bool false], Call.send t "reveal" [],
        Call.send t "mint" [Value.num 10], Call.send t "tokenURI" [Value.num 1]] := by
  have hk : k = 1 ∨ k = 2 ∨ k = 3 ∨ k = 4 := by omega
  rcases hk with rfl | rfl | rfl | rfl
  · rw [run_pause_error env t e hr hfail]
    rfl
  · obtain ⟨v0, h0⟩ := hprev 0 (by omega)
    rw [run_reveal_error env t v0 e hr h0 hfail]
    rfl
  · obtain ⟨v0, h0⟩ := hprev 0 (by omega)
    obtain ⟨v1, h1⟩ := hprev 1 (by omega)
    rw [run_mint_error env t v0 v1 e hr h0 h1 hfail]
    rfl
  · obtain ⟨v0, h0⟩ := hprev 0 (by omega)
    obtain ⟨v1, h1⟩ := hprev 1 (by omega)
    obtain ⟨v2, h2⟩ := hprev 2 (by omega)
    rw [run_tokenURI_error env t v0 v1 v2 e hr h0 h1 h2 hfail]
    rfl

theorem C4_witness :
    remoteIssued (run (revertAt 3)).2.trace =
      List.take 3 [Call.send 7 "pause" [Value.bool false], Call.send 7 "reveal" [],
        Call.send 7 "mint" [Value.num 10], Call.send 7 "tokenURI" [Value.num 1]] :=
  C4_stops_at_failing_call (revertAt 3) 7 3 ⟨"revert"⟩ (by decide) (by decide) rfl
    (fun j hj => by
      have hj0 : j = 0 ∨ j = 1 := by omega
      rcases hj0 with rfl | rfl
      · exact ⟨_, rfl⟩
      · exact ⟨_, rfl⟩)
    rfl

/-- C5: the script catches nothing. The error of the first failing step (resolution, or
the first remote call that fails after the earlier ones succeeded) is the result of the
script unchanged, and the script succeeds exactly when resolution and all four remote
calls succeed. -/
theorem C5_first_error_propagates (env : Env) :
    (∀ e, env.resolved = Except.error e → (run env).1 = Except.error e)
      ∧ (∀ t k e, k < 4 → env.resolved = Except.ok t →
          (∀ j, j < k → ∃ v, env.answer t j = Except.ok v) →
          env.answer t k = Except.error e → (run env).1 = Except.error e)
      ∧ ((run env).1 = Except.ok () ↔
          ∃ t, env.resolved = Except.ok t ∧ ∀ k, k < 4 → ∃ v, env.answer t k = Except.ok v) := by
  refine ⟨fun e h => (run_of_reached env (Stop.noContract e) h).1,
    fun t k e hk hr hprev hfail =>
      (run_of_reached env (Stop.failed t k e) ⟨hk, hr, hprev, hfail⟩).1, ?_⟩
  obtain ⟨s, hs⟩ := exists_reached env
  rw [(run_of_reached env s hs).1]
  cases s with
  | noContract e =>
      constructor
      · intro h
        cases h
      · rintro ⟨t, hr, -⟩
        have hs1 : env.resolved = Except.error e := hs
        rw [hs1] at hr
        cases hr
  | failed t k e =>
      obtain ⟨hk, hr, -, hfail⟩ := hs
      constructor
      · intro h
        cases h
      · rintro ⟨t1, hr1, hall⟩
        rw [hr] at hr1
        cases hr1
        obtain ⟨v, hv⟩ := hall k hk
        rw [hfail] at hv
        cases hv
  | done t u =>
      obtain ⟨hr, hprev, h3⟩ := hs
      refine ⟨fun _ => ⟨t, hr, fun k hk => ?_⟩, fun _ => rfl⟩
      rcases Nat.lt_or_ge k 3 with h | h
      · exact hprev k h
      · have hk3 : k = 3 := by omega
        subst hk3
        exact ⟨u, h3⟩

theorem C5_witness :
    (run (revertAt 2)).1 = Except.error ⟨"revert"⟩ :=
  (C5_first_error_propagates (revertAt 2)).2.1 7 1 ⟨"revert"⟩ (by decide) rfl
    (fun j hj => by
      have hj0 : j = 0 := by omega
      subst hj0
      exact ⟨_, rfl⟩)
    rfl

/-- C6: execution is strictly sequential. In the trace of every run a call (the
resolution included) is started only when no call is in flight, so at no point of the
trace is more than one call in flight, and at the end none is. -/
theorem C6_strictly_sequential (env : Env) :
    sequentialFrom [] (run env).2.trace = true
      ∧ (∀ n id c, (run env).2.trace.get? n = some (Event.callStart id c) →
          inFlightAfter [] ((run env).2.trace.take n) = [])
      ∧ (∀ n, (inFlightAfter [] ((run env).2.trace.take n)).length ≤ 1)
      ∧ inFlightAfter [] (run env).2.trace = [] := by
  obtain ⟨s, hs⟩ := exists_reached env
  rw [(run_of_reached env s hs).2]
  have hseq : sequentialFrom [] s.trace = true :=
    of_six_stops (fun s => sequentialFrom [] s.trace = true)
      (fun _ => rfl) (fun _ _ => rfl) (fun _ _ => rfl) (fun _ _ => rfl) (fun _ _ => rfl)
      (fun _ _ => rfl) env s hs
  have hend : inFlightAfter [] s.trace = [] :=
    of_six_stops (fun s => inFlightAfter [] s.trace = [])
      (fun _ => rfl) (fun _ _ => rfl) (fun _ _ => rfl) (fun _ _ => rfl) (fun _ _ => rfl)
      (fun _ _ => rfl) env s hs
  exact ⟨hseq, fun n id c h => none_in_flight_at_start s.trace [] n id c hseq h,
    fun n => at_most_one_in_flight s.trace [] n hseq (by simp), hend⟩

theorem C6_witness :
    inFlightAfter [] ((run sampleEnv).2.trace.take 3) = [] :=
  (C6_strictly_sequential sampleEnv).2.1 3 1 (Call.send 7 "pause" [Value.bool false]) rfl

/-- C7: standard output is a prefix of the success output, fixed by where the run stops:
nothing when resolution fails, the single line "Mint tokens" when resolution succeeds and
one of the four remote calls fails, the full four lines when all succeed; the lines
"END" and "tokenURI" are written exactly when resolution and all four calls succeeded;
and "Mint tokens" is written before any call on the contract handle is issued. -/
theorem C7_stdout_by_stop (env : Env) :
    (∃ u, stdoutLines (run env).2.trace <+: ["Mint tokens", "tokenURI", u, "END"])
      ∧ (∀ e, env.resolved = Except.error e → stdoutLines (run env).2.trace = [])
      ∧ (∀ t k e, env.resolved = Except.ok t → k < 4 → env.answer t k = Except.error e →
          stdoutLines (run env).2.trace = ["Mint tokens"])
      ∧ (∀ t u, env.resolved = Except.ok t →
          (∀ j, j < 3 → ∃ v, env.answer t j = Except.ok v) → env.answer t 3 = Except.ok u →
          stdoutLines (run env).2.trace = ["Mint tokens", "tokenURI", u.render, "END"])
      ∧ ("END" ∈ stdoutLines (run env).2.trace ↔ env.allSucceed)
      ∧ ("tokenURI" ∈ stdoutLines (run env).2.trace ↔ env.allSucceed)
      ∧ (∀ n id t m a,
          (run env).2.trace.get? n = some (Event.callStart id (Call.send t m a)) →
          Event.log "Mint tokens" ∈ (run env).2.trace.take n) := by
  have hfull : ∀ t u, env.resolved = Except.ok t →
      (∀ j, j < 3 → ∃ v, env.answer t j = Except.ok v) → env.answer t 3 = Except.ok u →
      stdoutLines (run env).2.trace = ["Mint tokens", "tokenURI", u.render, "END"] := by
    intro t u hr hprev h3
    rw [(run_of_reached env (Stop.done t u) ⟨hr, hprev, h3⟩).2]
    rfl
  obtain ⟨s, hs⟩ := exists_reached env
  have hdone := reached_done_iff env s hs
  rw [(run_of_reached env s hs).2, stdoutLines_of_reached env s hs] at hfull ⊢
  have hlog : logBeforeSend false s.trace = true :=
    of_six_stops (fun s => logBeforeSend false s.trace = true)
      (fun _ => rfl) (fun _ _ => rfl) (fun _ _ => rfl) (fun _ _ => rfl) (fun _ _ => rfl)
      (fun _ _ => rfl) env s hs
  refine ⟨?_, ?_, ?_, hfull, ?_, ?_, ?_⟩
  · clear hfull
    cases s with
    | noContract e => exact ⟨"", List.nil_prefix⟩
    | failed t k e => exact ⟨"", ["tokenURI", "", "END"], rfl⟩
    | done t u => exact ⟨u.render, List.prefix_refl _⟩
  · intro e he
    cases s with
    | noContract e1 => rfl
    | failed t k e1 =>
        rw [hs.2.1] at he
        cases he
    | done t u =>
        rw [hs.1] at he
        cases he
  · intro t k e hr hk hfail
    cases s with
    | noContract e1 =>
        have hs1 : env.resolved = Except.error e1 := hs
        rw [hs1] at hr
        cases hr
    | failed t1 k1 e1 => rfl
    | done t1 u =>
        obtain ⟨t2, hr2, hall⟩ := hdone.1 ⟨t1, u, rfl⟩
        rw [hr] at hr2
        cases hr2
        obtain ⟨v, hv⟩ := hall k hk
        rw [hfail] at hv
        cases hv
  · rw [← hdone]
    cases s with
    | noContract e => simp [Stop.lines]
    | failed t k e => simp [Stop.lines]
    | done t u => simp [Stop.lines]
  · rw [← hdone]
    cases s with
    | noContract e => simp [Stop.lines]
    | failed t k e => simp [Stop.lines]
    | done t u => simp [Stop.lines]
  · intro n id t m a hget
    rcases log_before_send s.trace false n id t m a hlog hget with h | h
    · cases h
    · exact h

theorem C7_witness :
    stdoutLines (run (revertAt 3)).2.trace = ["Mint tokens"] :=
  (C7_stdout_by_stop (revertAt 3)).2.2.1 7 2 ⟨"revert"⟩ rfl (by decide) rfl

/-- C8: the completion callback is never invoked. No run contains a call of the callback,
and the run is the same whatever callback the runner passes in. -/
theorem C8_callback_never_invoked (env : Env) :
    callbackCalls (run env).2.trace = []
      ∧ (∀ arg, Event.callback arg ∉ (run env).2.trace)
      ∧ (∀ (cb : Option Err → Script Unit) (w : World),
          module_exports cb env w = module_exports runnerCallback env w) := by
  obtain ⟨s, hs⟩ := exists_reached env
  rw [(run_of_reached env s hs).2]
  refine ⟨?_, ?_, fun _ _ => rfl⟩
  · exact of_six_stops (fun s => callbackCalls s.trace = [])
      (fun _ => rfl) (fun _ _ => rfl) (fun _ _ => rfl) (fun _ _ => rfl) (fun _ _ => rfl)
      (fun _ _ => rfl) env s hs
  · exact of_six_stops (fun s => ∀ arg, Event.callback arg ∉ s.trace)
      (fun _ _ => by simp [Stop.trace])
      (fun _ _ _ => by simp [Stop.trace, remoteCalls])
      (fun _ _ _ => by simp [Stop.trace, remoteCalls])
      (fun _ _ _ => by simp [Stop.trace, remoteCalls])
      (fun _ _ _ => by simp [Stop.trace, remoteCalls])
      (fun _ _ _ => by simp [Stop.trace, remoteCalls]) env s hs

/-- C9: the constant `owner` is dead. Two runs that differ only in its value, in the same
environment and from the same state, have the same result and the same final state (the
calls with their arguments and standard output included); and no call of a run carries
the declared owner address, as artifact, address, method or argument. -/
theorem C9_owner_is_dead (env : Env) :
    (∀ (o1 o2 addr : String) (cb : Option Err → Script Unit) (w : World),
        body o1 addr cb env w = body o2 addr cb env w)
      ∧ (∀ (o : String), body o contract_address runnerCallback env World.init = run env)
      ∧ (∀ c, c ∈ issued (run env).2.trace → owner ∉ c.strings) := by
  refine ⟨fun _ _ _ _ _ => rfl, fun _ => rfl, ?_⟩
  obtain ⟨s, hs⟩ := exists_reached env
  rw [(run_of_reached env s hs).2]
  exact of_six_stops (fun s => ∀ c, c ∈ issued s.trace → owner ∉ c.strings)
    (fun _ c hc => by
      simp [Stop.trace, issued] at hc
      exact owner_not_in_calls 0 c (by simp [hc]))
    (fun t _ c hc => by
      simp [Stop.trace, issued, remoteCalls] at hc
      exact owner_not_in_calls t c (by simp only [remoteCalls, List.mem_cons]; tauto))
    (fun t _ c hc => by
      simp [Stop.trace, issued, remoteCalls] at hc
      exact owner_not_in_calls t c (by simp only [remoteCalls, List.mem_cons]; tauto))
    (fun t _ c hc => by
      simp [Stop.trace, issued, remoteCalls] at hc
      exact owner_not_in_calls t c (by simp only [remoteCalls, List.mem_cons]; tauto))
    (fun t _ c hc => by
      simp [Stop.trace, issued, remoteCalls] at hc
      exact owner_not_in_calls t c (by simp only [remoteCalls, List.mem_cons]; tauto))
    (fun t _ c hc => by
      simp [Stop.trace, issued, remoteCalls] at hc
      exact owner_not_in_calls t c (by simp only [remoteCalls, List.mem_cons]; tauto)) env s hs

end MintScript
